import Mathlib

/-!
Bounds-checked array access (`chapter1/HW1_3_solution.cpp`) and the
debug-versus-release demonstration (`debug_vs_release_bug.cpp`).

A shallow embedding of the four protected variants of
`int foo(int *a, int base, int off) { return a[base + off]; }`
and of the `Logger` demonstration, followed by the properties proved about them.

Modelling conventions:

* an `int*` is `Option (List Int)`: `none` is `nullptr`, `some l` points at the
  first element of an array whose elements are `l`;
* `int` values are integers; `base + off` is computed by `int_add`, which wraps
  modulo `2^32` into the range of a 32-bit signed `int`;
* `size_t` values are natural numbers, and `static_cast<size_t>` reduces modulo `2^64`;
* a call ends in an `Outcome`: a returned value, a thrown exception, a failed
  `assert`, or `undefined` when an element is read through a null pointer or
  outside the array.
-/

namespace HW1_3

/-- The standard exceptions thrown by the protected variants, with their `what()` text. -/
inductive Exception where
  | invalid_argument (what : String)
  | out_of_range (what : String)
  | runtime_error (what : String)
  deriving DecidableEq, Repr

/-- How a call ends. -/
inductive Outcome (α : Type) where
  | returned (v : α)
  | thrown (e : Exception)
  | aborted (msg : String)
  | undefined
  deriving DecidableEq, Repr

/-- An `int*`: `none` is `nullptr`, `some l` points at an array with elements `l`. -/
abbrev IntPtr := Option (List Int)

/-- Smallest value of a 32-bit `int`. -/
def INT_MIN : Int := -2147483648

/-- Largest value of a 32-bit `int`. -/
def INT_MAX : Int := 2147483647

/-- Reduce an integer into the range of a 32-bit signed `int` (wrap-around modulo `2^32`). -/
def wrapInt (z : Int) : Int := (z + 2147483648) % 4294967296 - 2147483648

/-- The expression `base + off` on `int` operands. -/
def int_add (x y : Int) : Int := wrapInt (x + y)

/-- The conversion `static_cast<size_t>(i)` of an `int` to a 64-bit `size_t`. -/
def static_cast_size_t (i : Int) : Nat := (i % 18446744073709551616).toNat

/-- The element read `a[i]`: defined only for a non-null pointer and an index inside the array. -/
def subscript (a : IntPtr) (i : Int) : Outcome Int :=
  match a with
  | none => .undefined
  | some l =>
    if i < 0 then .undefined
    else
      match l[i.toNat]? with
      | some v => .returned v
      | none => .undefined

/-- The condition of the first `assert` of `foo_assert`: `a != nullptr`. -/
def assert_not_null (a : IntPtr) : Bool := a.isSome

/-- The condition of the second `assert` of `foo_assert`:
`base + off >= 0 && static_cast<size_t>(base + off) < size`. -/
def assert_in_bounds (base off : Int) (size : Nat) : Bool :=
  decide (int_add base off ≥ 0) && decide (static_cast_size_t (int_add base off) < size)

/-- Approach 1, `foo_assert`. With `ndebug` the two `assert`s are compiled out. -/
def foo_assert (ndebug : Bool) (a : IntPtr) (base off : Int) (size : Nat) : Outcome Int :=
  if !ndebug && !assert_not_null a then .aborted "Pointer cannot be null"
  else if !ndebug && !assert_in_bounds base off size then .aborted "Index out of bounds"
  else subscript a (int_add base off)

/-- Approach 2, `foo_exception`. -/
def foo_exception (a : IntPtr) (base off : Int) (size : Nat) : Outcome Int :=
  if a = none then .thrown (.invalid_argument "Pointer cannot be null")
  else
    let index := int_add base off
    if index < 0 || static_cast_size_t index ≥ size then
      .thrown (.out_of_range "Index out of bounds")
    else subscript a index

/-- Approach 3, `foo_optional`. -/
def foo_optional (a : IntPtr) (base off : Int) (size : Nat) : Outcome (Option Int) :=
  if a = none || int_add base off < 0 || static_cast_size_t (int_add base off) ≥ size then
    .returned none
  else
    match subscript a (int_add base off) with
    | .returned v => .returned (some v)
    | .thrown e => .thrown e
    | .aborted m => .aborted m
    | .undefined => .undefined

/-- Approach 4, the wrapper `struct SafeArray { int* data; size_t size; }`. -/
structure SafeArray where
  data : IntPtr
  size : Nat
  deriving DecidableEq, Repr

/-- The member function `SafeArray::get`. -/
def SafeArray.get (self : SafeArray) (base off : Int) : Outcome Int :=
  if self.data = none then .thrown (.runtime_error "Array data is null")
  else
    let index := int_add base off
    if index < 0 || static_cast_size_t index ≥ self.size then
      .thrown (.out_of_range "Index out of bounds")
    else subscript self.data index

/-- The sum `base + off` is representable as an `int`. -/
def NoOverflow (base off : Int) : Prop := INT_MIN ≤ base + off ∧ base + off ≤ INT_MAX

instance (base off : Int) : Decidable (NoOverflow base off) := by
  unfold NoOverflow; infer_instance

/-- The array `arr` of `main`. -/
def arr : List Int := [10, 20, 30, 40, 50]

end HW1_3

namespace DebugVsRelease

/-- The observable state of the demonstration: the lines of `debug_log.txt` and the lines
written to `std::cout`. A line is the text sent to a stream before one `std::endl`. -/
structure World where
  file : List String
  console : List String
  deriving DecidableEq, Repr

/-- The statement `std::cout << line << std::endl;`. -/
def cout (line : String) (w : World) : World :=
  { w with console := w.console ++ [line] }

/-- The call `std::to_string(v)` on an `int`. -/
def to_string (v : Int) : String := toString v

/-- The constructor `Logger()`: opens `debug_log.txt` (discarding what it held) and writes
the start marker. -/
def Logger.ctor (w : World) : World :=
  { w with file := [] ++ ["=== PROGRAM START ==="] }

/-- The member function `Logger::log`. -/
def Logger.log (message : String) (w : World) : World :=
  let w1 : World := { w with file := w.file ++ ["[LOG] " ++ message] }
  { w1 with console := w1.console ++ ["[LOG] " ++ message] }

/-- The destructor `~Logger()`. -/
def Logger.dtor (w : World) : World :=
  { w with file := w.file ++ ["=== PROGRAM END ==="] }

/-- The function `processCriticalData`; the value found in the uninitialised local
`featureEnabled` is the argument `featureEnabled`. -/
def processCriticalData (featureEnabled : Int) (w : World) : World :=
  let w := Logger.log "Entering processCriticalData()" w
  let w := Logger.log "Variable 'featureEnabled' declared but not initialized" w
  let w := Logger.log ("Value of featureEnabled: " ++ to_string featureEnabled) w
  let w :=
    if featureEnabled ≠ 0 then
      let w := Logger.log "IF CONDITION: featureEnabled is TRUE - executing critical path" w
      let w := cout "Processing critical data..." w
      Logger.log "Critical processing completed successfully" w
    else
      let w := Logger.log "IF CONDITION: featureEnabled is FALSE - skipping critical path" w
      let w := cout "Skipping critical processing - FEATURE DISABLED" w
      Logger.log "WARNING: Critical processing was skipped!" w
  Logger.log "Exiting processCriticalData()" w

/-- The function `processCriticalData_FIXED`. -/
def processCriticalData_FIXED (w : World) : World :=
  let w := Logger.log "Entering processCriticalData_FIXED()" w
  let featureEnabled : Int := 1
  let w := Logger.log
    ("Variable 'featureEnabled' properly initialized to: " ++ to_string featureEnabled) w
  let w :=
    if featureEnabled ≠ 0 then
      let w := Logger.log "IF CONDITION: featureEnabled is TRUE - executing critical path" w
      let w := cout "Processing critical data..." w
      Logger.log "Critical processing completed successfully" w
    else
      let w := Logger.log "IF CONDITION: featureEnabled is FALSE - skipping critical path" w
      let w := cout "Skipping critical processing - FEATURE DISABLED" w
      Logger.log "WARNING: Critical processing was skipped!" w
  Logger.log "Exiting processCriticalData_FIXED()" w

/-- The lines a run `f` adds to the log file of `w`. -/
def fileOut (f : World → World) (w : World) : List String :=
  (f w).file.drop w.file.length

/-- The lines a run `f` adds to the console of `w`. -/
def consoleOut (f : World → World) (w : World) : List String :=
  (f w).console.drop w.console.length

/-- A console line is an echo of the logger when it starts with the `[LOG] ` tag. -/
def isLogLine (line : String) : Bool := "[LOG] ".data.isPrefixOf line.data

/-- The console lines that are not echoes of the logger. -/
def directPrints (lines : List String) : List String :=
  lines.filter (fun line => !isLogLine line)

end DebugVsRelease

namespace HW1_3

/-! ### Arithmetic helpers -/

theorem int_add_eq_of_noOverflow {base off : Int} (h : NoOverflow base off) :
    int_add base off = base + off := by
  unfold NoOverflow INT_MIN INT_MAX at h
  unfold int_add wrapInt
  omega

theorem static_cast_size_t_of_nonneg_int {i : Int} (h0 : 0 ≤ i) (h1 : i ≤ INT_MAX) :
    static_cast_size_t i = i.toNat := by
  unfold INT_MAX at h1
  unfold static_cast_size_t
  congr 1
  omega

theorem int_add_le_max (base off : Int) : int_add base off ≤ INT_MAX := by
  unfold int_add wrapInt INT_MAX
  omega

/-- Reading inside the array returns the element. -/
theorem subscript_in_bounds (l : List Int) (i : Int) (h0 : 0 ≤ i) (h : i.toNat < l.length) :
    subscript (some l) i = .returned (l.get ⟨i.toNat, h⟩) := by
  have hi : ¬ i < 0 := by omega
  simp [subscript, hi, List.getElem?_eq_getElem h]

/-- The guard shared by the variants, on a sum that does not overflow: the wrapped index is
rejected exactly when `base + off` lies outside `[0, size)`. -/
theorem guard_iff_of_noOverflow {base off : Int} (size : Nat) (h : NoOverflow base off) :
    (int_add base off < 0 ∨ size ≤ static_cast_size_t (int_add base off)) ↔
      (base + off < 0 ∨ (size : Int) ≤ base + off) := by
  rw [int_add_eq_of_noOverflow h]
  by_cases h0 : base + off < 0
  · simp [h0]
  · have h0' : 0 ≤ base + off := by omega
    rw [static_cast_size_t_of_nonneg_int h0' h.2]
    constructor
    · rintro (hneg | hge)
      · exact Or.inl hneg
      · right; omega
    · rintro (hneg | hge)
      · exact Or.inl hneg
      · right; omega

/-- Past its guards `SafeArray::get` is the element read at the wrapped index. -/
theorem get_of_guard_passed (sa : SafeArray) (base off : Int) (hp : sa.data ≠ none)
    (hg : ¬ (int_add base off < 0 ∨ sa.size ≤ static_cast_size_t (int_add base off))) :
    sa.get base off = subscript sa.data (int_add base off) := by
  simp only [SafeArray.get, hp, if_false]
  have : (decide (int_add base off < 0) || decide (static_cast_size_t (int_add base off) ≥ sa.size))
      = false := by
    simpa [not_or] using hg
  simp [this]

/-- Past its guards `foo_exception` is the element read at the wrapped index. -/
theorem foo_exception_of_guard_passed (a : IntPtr) (base off : Int) (size : Nat) (hp : a ≠ none)
    (hg : ¬ (int_add base off < 0 ∨ size ≤ static_cast_size_t (int_add base off))) :
    foo_exception a base off size = subscript a (int_add base off) := by
  simp only [foo_exception, hp, if_false]
  have : (decide (int_add base off < 0) || decide (static_cast_size_t (int_add base off) ≥ size))
      = false := by
    simpa [not_or] using hg
  simp [this]

/-- When its index guard fires `SafeArray::get` throws `out_of_range`. -/
theorem get_of_guard_failed (sa : SafeArray) (base off : Int) (hp : sa.data ≠ none)
    (hg : int_add base off < 0 ∨ sa.size ≤ static_cast_size_t (int_add base off)) :
    sa.get base off = .thrown (.out_of_range "Index out of bounds") := by
  simp only [SafeArray.get, hp, if_false]
  have : (decide (int_add base off < 0) || decide (static_cast_size_t (int_add base off) ≥ sa.size))
      = true := by
    simpa using hg
  simp [this]

/-- When its index guard fires `foo_exception` throws `out_of_range`. -/
theorem foo_exception_of_guard_failed (a : IntPtr) (base off : Int) (size : Nat) (hp : a ≠ none)
    (hg : int_add base off < 0 ∨ size ≤ static_cast_size_t (int_add base off)) :
    foo_exception a base off size = .thrown (.out_of_range "Index out of bounds") := by
  simp only [foo_exception, hp, if_false]
  have : (decide (int_add base off < 0) || decide (static_cast_size_t (int_add base off) ≥ size))
      = true := by
    simpa using hg
  simp [this]

/-- The element read never throws and never aborts. -/
theorem subscript_cases (a : IntPtr) (i : Int) :
    subscript a i = .undefined ∨
      ∃ l v, a = some l ∧ 0 ≤ i ∧ l[i.toNat]? = some v ∧ subscript a i = .returned v := by
  cases a with
  | none => left; rfl
  | some l =>
    by_cases hi : i < 0
    · left; simp [subscript, hi]
    · cases hv : l[i.toNat]? with
      | none => left; simp [subscript, hi, hv]
      | some v =>
        right
        exact ⟨l, v, rfl, by omega, hv, by simp [subscript, hi, hv]⟩

/-- A valid request (non-overflowing sum inside `[0, size)`, array of at least `size`
elements) reads the element `l[base + off]`. -/
theorem subscript_valid (l : List Int) (base off : Int) (size : Nat) (hlen : size ≤ l.length)
    (hno : NoOverflow base off) (h0 : 0 ≤ base + off) (h1 : base + off < size) :
    ∃ h : (base + off).toNat < l.length,
      subscript (some l) (int_add base off) = .returned (l.get ⟨(base + off).toNat, h⟩) := by
  have h : (base + off).toNat < l.length := by omega
  refine ⟨h, ?_⟩
  rw [int_add_eq_of_noOverflow hno]
  exact subscript_in_bounds l (base + off) h0 h

/-- C1. For a `SafeArray` whose `data` is non-null and holds (at least) `size` elements, and
for `base`, `off` whose sum does not overflow and satisfies `0 <= base + off < size`,
`SafeArray::get(base, off)` returns normally and its result is `data[base + off]`. -/
theorem get_returns_element (sa : SafeArray) (l : List Int) (base off : Int)
    (hdata : sa.data = some l) (hlen : sa.size ≤ l.length)
    (hno : NoOverflow base off) (h0 : 0 ≤ base + off) (h1 : base + off < sa.size) :
    ∃ h : (base + off).toNat < l.length,
      sa.get base off = .returned (l.get ⟨(base + off).toNat, h⟩) := by
  have hp : sa.data ≠ none := by simp [hdata]
  have hg : ¬ (int_add base off < 0 ∨ sa.size ≤ static_cast_size_t (int_add base off)) := by
    rw [guard_iff_of_noOverflow sa.size hno]
    omega
  obtain ⟨h, hs⟩ := subscript_valid l base off sa.size hlen hno h0 h1
  exact ⟨h, by rw [get_of_guard_passed sa base off hp hg, hdata, hs]⟩

/-- C1 at the call of `main`: `SafeArray{arr, 5}.get(1, 2)` returns `40`. -/
theorem get_returns_element_witness :
    NoOverflow 1 2 ∧ (0 : Int) ≤ 1 + 2 ∧ (1 : Int) + 2 < (5 : Nat) ∧
      (SafeArray.mk (some arr) 5).get 1 2 = .returned 40 := by
  refine ⟨by decide, by decide, by decide, ?_⟩
  obtain ⟨_, hv⟩ := get_returns_element (SafeArray.mk (some arr) 5) arr 1 2 rfl
    (by decide) (by decide) (by decide) (by decide)
  rw [hv]
  rfl

/-- C2, as amended. For every `SafeArray` and all `base`, `off` whose sum does not overflow:
`get` throws `runtime_error` when `data` is null, whatever the index; with non-null `data` it
throws `out_of_range` exactly when `base + off < 0` or `base + off >= size`; it throws some
exception exactly when the access is not valid; in every remaining case it goes on to read
`data[base + off]`, and when `data` holds at least `size` elements that read returns
normally, with the element `data[base + off]`. -/
theorem get_error_iff_invalid (sa : SafeArray) (base off : Int) (hno : NoOverflow base off) :
    (sa.data = none → sa.get base off = .thrown (.runtime_error "Array data is null")) ∧
    (sa.data ≠ none →
      (sa.get base off = .thrown (.out_of_range "Index out of bounds") ↔
        (base + off < 0 ∨ (sa.size : Int) ≤ base + off))) ∧
    ((∃ e, sa.get base off = .thrown e) ↔
      (sa.data = none ∨ base + off < 0 ∨ (sa.size : Int) ≤ base + off)) ∧
    (∀ l, sa.data = some l → ¬ (base + off < 0 ∨ (sa.size : Int) ≤ base + off) →
      sa.get base off = subscript (some l) (base + off) ∧
      (sa.size ≤ l.length → ∃ h : (base + off).toNat < l.length,
        sa.get base off = .returned (l.get ⟨(base + off).toNat, h⟩))) := by
  have hnull : sa.data = none → sa.get base off = .thrown (.runtime_error "Array data is null") := by
    intro h
    simp [SafeArray.get, h]
  have hpass : ∀ l, sa.data = some l → ¬ (base + off < 0 ∨ (sa.size : Int) ≤ base + off) →
      sa.get base off = subscript (some l) (base + off) := by
    intro l hl hv
    have hp : sa.data ≠ none := by simp [hl]
    rw [← guard_iff_of_noOverflow sa.size hno] at hv
    rw [get_of_guard_passed sa base off hp hv, hl, int_add_eq_of_noOverflow hno]
  have hnothrown : ∀ l e, subscript (some l) (base + off) ≠ .thrown e := by
    intro l e
    rcases subscript_cases (some l) (base + off) with h | ⟨_, _, _, _, _, h⟩ <;> simp [h]
  have hrange : sa.data ≠ none →
      (sa.get base off = .thrown (.out_of_range "Index out of bounds") ↔
        (base + off < 0 ∨ (sa.size : Int) ≤ base + off)) := by
    intro hp
    constructor
    · intro ht
      by_contra hv
      obtain ⟨l, hl⟩ := Option.ne_none_iff_exists'.mp hp
      rw [hpass l hl hv] at ht
      exact hnothrown l _ ht
    · intro hv
      rw [← guard_iff_of_noOverflow sa.size hno] at hv
      exact get_of_guard_failed sa base off hp hv
  refine ⟨hnull, hrange, ?_, ?_⟩
  · constructor
    · rintro ⟨e, he⟩
      by_contra hv
      simp only [not_or] at hv
      obtain ⟨l, hl⟩ := Option.ne_none_iff_exists'.mp hv.1
      rw [hpass l hl (by tauto)] at he
      exact hnothrown l e he
    · rintro (h | h)
      · exact ⟨_, hnull h⟩
      · by_cases hp : sa.data = none
        · exact ⟨_, hnull hp⟩
        · exact ⟨_, (hrange hp).mpr h⟩
  · intro l hl hv
    refine ⟨hpass l hl hv, fun hlen => ?_⟩
    obtain ⟨h, hs⟩ := subscript_valid l base off sa.size hlen hno (by omega) (by omega)
    rw [int_add_eq_of_noOverflow hno] at hs
    exact ⟨h, by rw [hpass l hl hv, hs]⟩

/-- C2 at `SafeArray{arr, 5}`: with `base = 4`, `off = 3` the index `7` is rejected, and
with `base = 1`, `off = 2` the call returns the element `40`. -/
theorem get_error_iff_invalid_witness :
    NoOverflow 4 3 ∧
      (SafeArray.mk (some arr) 5).get 4 3 = .thrown (.out_of_range "Index out of bounds") ∧
    NoOverflow 1 2 ∧ (SafeArray.mk (some arr) 5).get 1 2 = .returned 40 := by
  refine ⟨by decide, ?_, by decide, ?_⟩
  · exact ((get_error_iff_invalid (SafeArray.mk (some arr) 5) 4 3 (by decide)).2.1
      (by simp)).mpr (by decide)
  · obtain ⟨_, hv⟩ := ((get_error_iff_invalid (SafeArray.mk (some arr) 5) 1 2
      (by decide)).2.2.2 arr rfl (by decide)).2 (by decide)
    rw [hv]
    rfl

/-- C2 as stated fails for a `SafeArray` whose `size` exceeds the array behind `data`:
with `data` pointing at three elements and `size = 5`, the request `base = 0`, `off = 4`
does not overflow, `data` is non-null and the index `4` is inside `[0, 5)`, yet the call
does not return normally: it reads past the end of the array. -/
theorem get_returns_normally_fails :
    NoOverflow 0 4 ∧
    (SafeArray.mk (some [10, 20, 30]) 5).data ≠ none ∧
    ¬ ((0 : Int) + 4 < 0 ∨ (((SafeArray.mk (some [10, 20, 30]) 5).size : Nat) : Int) ≤ 0 + 4) ∧
    (SafeArray.mk (some [10, 20, 30]) 5).get 0 4 = .undefined ∧
    ¬ ∃ v, (SafeArray.mk (some [10, 20, 30]) 5).get 0 4 = .returned v := by
  have h : (SafeArray.mk (some [10, 20, 30]) 5).get 0 4 = .undefined := by decide
  refine ⟨by decide, by decide, by decide, h, ?_⟩
  rintro ⟨v, hv⟩
  rw [h] at hv
  cases hv

/-- `foo_exception` returns `v` exactly when the pointer is non-null, the index guard passes
and the element read gives `v`. -/
theorem foo_exception_returned_iff (a : IntPtr) (base off : Int) (size : Nat) (v : Int) :
    foo_exception a base off size = .returned v ↔
      (a ≠ none ∧ ¬ (int_add base off < 0 ∨ size ≤ static_cast_size_t (int_add base off)) ∧
        subscript a (int_add base off) = .returned v) := by
  by_cases hp : a = none
  · simp [foo_exception, hp]
  · by_cases hg : int_add base off < 0 ∨ size ≤ static_cast_size_t (int_add base off)
    · rw [foo_exception_of_guard_failed a base off size hp hg]
      simp [hg]
    · rw [foo_exception_of_guard_passed a base off size hp hg]
      simp [hp, hg]

/-- `SafeArray::get` returns `v` exactly when `data` is non-null, the index guard passes and
the element read gives `v`. -/
theorem get_returned_iff (sa : SafeArray) (base off : Int) (v : Int) :
    sa.get base off = .returned v ↔
      (sa.data ≠ none ∧
        ¬ (int_add base off < 0 ∨ sa.size ≤ static_cast_size_t (int_add base off)) ∧
        subscript sa.data (int_add base off) = .returned v) := by
  by_cases hp : sa.data = none
  · simp [SafeArray.get, hp]
  · by_cases hg : int_add base off < 0 ∨ sa.size ≤ static_cast_size_t (int_add base off)
    · rw [get_of_guard_failed sa base off hp hg]
      simp [hg]
    · rw [get_of_guard_passed sa base off hp hg]
      simp [hp, hg]

/-- When its guard fires `foo_optional` returns `nullopt`. -/
theorem foo_optional_of_guard_failed (a : IntPtr) (base off : Int) (size : Nat)
    (hg : a = none ∨ int_add base off < 0 ∨ size ≤ static_cast_size_t (int_add base off)) :
    foo_optional a base off size = .returned none := by
  have : (decide (a = none) || decide (int_add base off < 0) ||
      decide (static_cast_size_t (int_add base off) ≥ size)) = true := by
    simpa [or_assoc] using hg
  simp only [foo_optional, this, if_true]

/-- Past its guard `foo_optional` wraps the outcome of the element read. -/
theorem foo_optional_of_guard_passed (a : IntPtr) (base off : Int) (size : Nat)
    (hg : ¬ (a = none ∨ int_add base off < 0 ∨ size ≤ static_cast_size_t (int_add base off))) :
    (∀ v, subscript a (int_add base off) = .returned v →
      foo_optional a base off size = .returned (some v)) ∧
    (subscript a (int_add base off) = .undefined → foo_optional a base off size = .undefined) := by
  have : (decide (a = none) || decide (int_add base off < 0) ||
      decide (static_cast_size_t (int_add base off) ≥ size)) = false := by
    simpa [not_or, and_assoc] using hg
  constructor
  · intro v hv
    simp only [foo_optional, this, hv]
    simp
  · intro hu
    simp only [foo_optional, this, hu]
    simp

/-- `foo_optional` holds `v` exactly when the pointer is non-null, the index guard passes and
the element read gives `v`. -/
theorem foo_optional_some_iff (a : IntPtr) (base off : Int) (size : Nat) (v : Int) :
    foo_optional a base off size = .returned (some v) ↔
      (a ≠ none ∧ ¬ (int_add base off < 0 ∨ size ≤ static_cast_size_t (int_add base off)) ∧
        subscript a (int_add base off) = .returned v) := by
  by_cases hg : a = none ∨ int_add base off < 0 ∨ size ≤ static_cast_size_t (int_add base off)
  · rw [foo_optional_of_guard_failed a base off size hg]
    constructor
    · intro h
      simp at h
    · rintro ⟨hp, hi, -⟩
      rcases hg with h | h
      · exact absurd h hp
      · exact absurd h hi
  · obtain ⟨hret, hund⟩ := foo_optional_of_guard_passed a base off size hg
    have hp : a ≠ none := fun h => hg (Or.inl h)
    have hi : ¬ (int_add base off < 0 ∨ size ≤ static_cast_size_t (int_add base off)) :=
      fun h => hg (Or.inr h)
    rcases subscript_cases a (int_add base off) with hu | ⟨_, w, _, _, _, hw⟩
    · rw [hund hu, hu]
      simp
    · rw [hret w hw, hw]
      simp [hp, hi]

/-- When both assertions hold, or are compiled out, `foo_assert` is the element read. -/
theorem foo_assert_of_asserts (ndebug : Bool) (a : IntPtr) (base off : Int) (size : Nat)
    (h : ndebug = true ∨ (assert_not_null a = true ∧ assert_in_bounds base off size = true)) :
    foo_assert ndebug a base off size = subscript a (int_add base off) := by
  rcases h with h | ⟨h1, h2⟩
  · simp [foo_assert, h]
  · simp [foo_assert, h1, h2]

/-- The two assertions of `foo_assert` say that the pointer is non-null and that the index
guard of the other variants passes. -/
theorem asserts_iff (a : IntPtr) (base off : Int) (size : Nat) :
    (assert_not_null a = true ∧ assert_in_bounds base off size = true) ↔
      (a ≠ none ∧ ¬ (int_add base off < 0 ∨ size ≤ static_cast_size_t (int_add base off))) := by
  cases a with
  | none => simp [assert_not_null]
  | some l =>
    simp only [assert_not_null, assert_in_bounds, Option.isSome_some, true_and, ne_eq,
      not_false_eq_true, reduceCtorEq, Bool.and_eq_true, decide_eq_true_eq, not_or, not_lt,
      not_le]

/-- The outcome of `foo_optional` is never a thrown exception. -/
theorem foo_optional_not_thrown (a : IntPtr) (base off : Int) (size : Nat) (e : Exception) :
    foo_optional a base off size ≠ .thrown e := by
  by_cases hg : a = none ∨ int_add base off < 0 ∨ size ≤ static_cast_size_t (int_add base off)
  · rw [foo_optional_of_guard_failed a base off size hg]
    simp
  · obtain ⟨hret, hund⟩ := foo_optional_of_guard_passed a base off size hg
    rcases subscript_cases a (int_add base off) with hu | ⟨_, w, _, _, _, hw⟩
    · rw [hund hu]
      simp
    · rw [hret w hw]
      simp

/-- C4, as amended. For all `(a, base, off, size)` with non-overflowing `base + off`:
`foo_optional` returns `nullopt` if and only if `a` is null or `base + off < 0` or
`base + off >= size`; in every other case it goes on to read `a[base + off]` and wraps what
the read gives, so when `a` holds at least `size` elements it returns an engaged optional
holding `a[base + off]`; and it never throws. -/
theorem foo_optional_contract (a : IntPtr) (base off : Int) (size : Nat)
    (hno : NoOverflow base off) :
    (foo_optional a base off size = .returned none ↔
      (a = none ∨ base + off < 0 ∨ (size : Int) ≤ base + off)) ∧
    (∀ l, a = some l → ¬ (a = none ∨ base + off < 0 ∨ (size : Int) ≤ base + off) →
      (∀ v, subscript (some l) (base + off) = .returned v →
        foo_optional a base off size = .returned (some v)) ∧
      (subscript (some l) (base + off) = .undefined →
        foo_optional a base off size = .undefined) ∧
      (size ≤ l.length → ∃ h : (base + off).toNat < l.length,
        foo_optional a base off size = .returned (some (l.get ⟨(base + off).toNat, h⟩)))) ∧
    (∀ e, foo_optional a base off size ≠ .thrown e) := by
  have hguard : (a = none ∨ int_add base off < 0 ∨
      size ≤ static_cast_size_t (int_add base off)) ↔
      (a = none ∨ base + off < 0 ∨ (size : Int) ≤ base + off) := by
    rw [guard_iff_of_noOverflow size hno]
  refine ⟨?_, ?_, foo_optional_not_thrown a base off size⟩
  · constructor
    · intro hnone
      by_contra hv
      rw [← hguard] at hv
      obtain ⟨hret, hund⟩ := foo_optional_of_guard_passed a base off size hv
      rcases subscript_cases a (int_add base off) with hu | ⟨_, w, _, _, _, hw⟩
      · rw [hund hu] at hnone
        simp at hnone
      · rw [hret w hw] at hnone
        simp at hnone
    · intro hv
      exact foo_optional_of_guard_failed a base off size (hguard.mpr hv)
  · intro l hl hv
    rw [← hguard] at hv
    obtain ⟨hret, hund⟩ := foo_optional_of_guard_passed a base off size hv
    rw [hl, int_add_eq_of_noOverflow hno] at hret hund
    rw [hl]
    refine ⟨hret, hund, fun hlen => ?_⟩
    have hv' : ¬ (base + off < 0 ∨ (size : Int) ≤ base + off) := by
      rw [← guard_iff_of_noOverflow size hno]
      exact fun h => hv (Or.inr h)
    obtain ⟨h, hs⟩ := subscript_valid l base off size hlen hno (by omega) (by omega)
    rw [int_add_eq_of_noOverflow hno] at hs
    exact ⟨h, hret _ hs⟩

/-- C4 at the call of `main`: `foo_optional(arr, 1, 2, 5)` holds `40`. -/
theorem foo_optional_contract_witness :
    NoOverflow 1 2 ∧ foo_optional (some arr) 1 2 5 = .returned (some 40) := by
  refine ⟨by decide, ?_⟩
  obtain ⟨_, hv⟩ := ((foo_optional_contract (some arr) 1 2 5 (by decide)).2.1 arr rfl
    (by decide)).2.2 (by decide)
  rw [hv]
  rfl

/-- C4 as stated fails when `size` exceeds the array behind `a`: with `a` pointing at three
elements and `size = 5`, the request `base = 0`, `off = 4` does not overflow, `a` is
non-null and the index `4` is inside `[0, 5)`, yet `foo_optional` does not return an
engaged optional: it reads past the end of the array. -/
theorem foo_optional_engaged_fails :
    NoOverflow 0 4 ∧
    ¬ ((some [10, 20, 30] : IntPtr) = none ∨ (0 : Int) + 4 < 0 ∨ ((5 : Nat) : Int) ≤ 0 + 4) ∧
    foo_optional (some [10, 20, 30]) 0 4 5 = .undefined ∧
    ¬ ∃ v, foo_optional (some [10, 20, 30]) 0 4 5 = .returned (some v) := by
  have h : foo_optional (some [10, 20, 30]) 0 4 5 = .undefined := by decide
  refine ⟨by decide, by decide, h, ?_⟩
  rintro ⟨v, hv⟩
  rw [h] at hv
  cases hv

/-- C5. The four approaches agree, for every `(a, base, off, size)` (with or without
overflow of `base + off`, and with the assertions enabled or compiled out): `foo_optional`
holds `v` iff `foo_exception` returns `v` iff `SafeArray{a, size}.get` returns `v` iff both
assertions of `foo_assert` hold and `foo_assert` returns `v`. On the test of `main`
(`arr = {10,20,30,40,50}`, `base = 1`, `off = 2`, `size = 5`) all four yield `40`. -/
theorem four_approaches_agree :
    (∀ (a : IntPtr) (base off : Int) (size : Nat) (ndebug : Bool) (v : Int),
      (foo_optional a base off size = .returned (some v) ↔
        foo_exception a base off size = .returned v) ∧
      (foo_exception a base off size = .returned v ↔
        (SafeArray.mk a size).get base off = .returned v) ∧
      ((SafeArray.mk a size).get base off = .returned v ↔
        (assert_not_null a = true ∧ assert_in_bounds base off size = true ∧
          foo_assert ndebug a base off size = .returned v))) ∧
    (foo_assert false (some arr) 1 2 5 = .returned 40 ∧
      foo_exception (some arr) 1 2 5 = .returned 40 ∧
      foo_optional (some arr) 1 2 5 = .returned (some 40) ∧
      (SafeArray.mk (some arr) 5).get 1 2 = .returned 40) := by
  refine ⟨?_, by decide, by decide, by decide, by decide⟩
  intro a base off size ndebug v
  refine ⟨?_, ?_, ?_⟩
  · rw [foo_optional_some_iff, foo_exception_returned_iff]
  · rw [foo_exception_returned_iff, get_returned_iff]
  · rw [get_returned_iff]
    constructor
    · rintro ⟨hp, hg, hs⟩
      have hasserts := (asserts_iff a base off size).mpr ⟨hp, hg⟩
      refine ⟨hasserts.1, hasserts.2, ?_⟩
      rw [foo_assert_of_asserts ndebug a base off size (Or.inr hasserts)]
      exact hs
    · rintro ⟨h1, h2, hs⟩
      obtain ⟨hp, hg⟩ := (asserts_iff a base off size).mp ⟨h1, h2⟩
      rw [foo_assert_of_asserts ndebug a base off size (Or.inr ⟨h1, h2⟩)] at hs
      exact ⟨hp, hg, hs⟩

/-- C6, the input on which the guards let an element through: with `base = off = INT_MIN` the
exact sum `-2^32` lies outside `[0, 1)`, yet the wrapped index is `0`, so `SafeArray::get`
and `foo_exception` return the element `7` and `foo_optional` holds it. -/
theorem negative_overflow_returns_element :
    ¬ (0 ≤ INT_MIN + INT_MIN ∧ INT_MIN + INT_MIN < ((1 : Nat) : Int)) ∧
    int_add INT_MIN INT_MIN = 0 ∧
    (SafeArray.mk (some [7]) 1).get INT_MIN INT_MIN = .returned 7 ∧
    foo_exception (some [7]) INT_MIN INT_MIN 1 = .returned 7 ∧
    foo_optional (some [7]) INT_MIN INT_MIN 1 = .returned (some 7) := by
  refine ⟨by decide, by decide, by decide, by decide, by decide⟩

/-- What the guards do achieve for 32-bit operands: when the exact sum is outside `[0, size)`
and is not below `INT_MIN`, no element is returned. -/
theorem out_of_range_rejected_unless_negative_overflow (l : List Int) (base off : Int)
    (size : Nat) (hb : base ≤ INT_MAX) (ho : off ≤ INT_MAX) (hmin : INT_MIN ≤ base + off)
    (hout : ¬ (0 ≤ base + off ∧ base + off < (size : Int))) :
    (SafeArray.mk (some l) size).get base off = .thrown (.out_of_range "Index out of bounds") ∧
    foo_exception (some l) base off size = .thrown (.out_of_range "Index out of bounds") ∧
    foo_optional (some l) base off size = .returned none := by
  have hg : int_add base off < 0 ∨ size ≤ static_cast_size_t (int_add base off) := by
    by_cases hmax : base + off ≤ INT_MAX
    · rw [guard_iff_of_noOverflow size ⟨hmin, hmax⟩]
      omega
    · left
      unfold INT_MAX at hb ho hmax
      unfold int_add wrapInt
      omega
  exact ⟨get_of_guard_failed _ base off (by simp) hg,
    foo_exception_of_guard_failed _ base off size (by simp) hg,
    foo_optional_of_guard_failed _ base off size (Or.inr hg)⟩

/-- Past the guards the element read is defined when the array holds `size` elements. -/
theorem subscript_defined (l : List Int) (base off : Int) (size : Nat) (hlen : size ≤ l.length)
    (hg : ¬ (int_add base off < 0 ∨ size ≤ static_cast_size_t (int_add base off))) :
    ∃ v, l[(int_add base off).toNat]? = some v ∧
      subscript (some l) (int_add base off) = .returned v := by
  have h0 : 0 ≤ int_add base off := by omega
  have hcast := static_cast_size_t_of_nonneg_int h0 (int_add_le_max base off)
  have h : (int_add base off).toNat < l.length := by omega
  exact ⟨_, List.getElem?_eq_getElem h, subscript_in_bounds l _ h0 h⟩

/-- C7. With the array a list of length `size` (or a null pointer), for all `base`, `off`
(overflowing or not) the element read is never reached through a null pointer or with an
index outside the list: none of `foo_exception`, `foo_optional`, `SafeArray::get`, nor
`foo_assert` when both of its assertions hold, ends in the `undefined` branch of the read;
and a value returned by any of them is the element `l[i]` of a non-null array `l`, for the
computed index `i` with `0 <= i < size`. -/
theorem element_access_in_bounds (a : IntPtr) (base off : Int) (size : Nat) (ndebug : Bool)
    (hlen : ∀ l, a = some l → l.length = size) :
    (foo_exception a base off size ≠ .undefined ∧
      foo_optional a base off size ≠ .undefined ∧
      (SafeArray.mk a size).get base off ≠ .undefined ∧
      (assert_not_null a = true → assert_in_bounds base off size = true →
        foo_assert ndebug a base off size ≠ .undefined)) ∧
    (∀ v, (foo_exception a base off size = .returned v ∨
        foo_optional a base off size = .returned (some v) ∨
        (SafeArray.mk a size).get base off = .returned v ∨
        (assert_not_null a = true ∧ assert_in_bounds base off size = true ∧
          foo_assert ndebug a base off size = .returned v)) →
      ∃ l, a = some l ∧ 0 ≤ int_add base off ∧ int_add base off < (size : Int) ∧
        l[(int_add base off).toNat]? = some v) := by
  -- past the guards the read is defined
  have hread : a ≠ none →
      ¬ (int_add base off < 0 ∨ size ≤ static_cast_size_t (int_add base off)) →
      ∃ l w, a = some l ∧ 0 ≤ int_add base off ∧ int_add base off < (size : Int) ∧
        l[(int_add base off).toNat]? = some w ∧
        subscript a (int_add base off) = .returned w := by
    intro hp hg
    obtain ⟨l, hl⟩ := Option.ne_none_iff_exists'.mp hp
    obtain ⟨w, hw, hs⟩ := subscript_defined l base off size (hlen l hl).ge hg
    have h0 : 0 ≤ int_add base off := by omega
    have hcast := static_cast_size_t_of_nonneg_int h0 (int_add_le_max base off)
    exact ⟨l, w, hl, h0, by omega, hw, by rw [hl]; exact hs⟩
  -- a returned value comes from a read inside the array
  have hval : ∀ v, (a ≠ none ∧
      ¬ (int_add base off < 0 ∨ size ≤ static_cast_size_t (int_add base off)) ∧
      subscript a (int_add base off) = .returned v) →
      ∃ l, a = some l ∧ 0 ≤ int_add base off ∧ int_add base off < (size : Int) ∧
        l[(int_add base off).toNat]? = some v := by
    rintro v ⟨hp, hg, hs⟩
    obtain ⟨l, w, hl, h0, h1, hw, hs'⟩ := hread hp hg
    rw [hs'] at hs
    injection hs with hvw
    exact ⟨l, hl, h0, h1, by rw [← hvw]; exact hw⟩
  refine ⟨⟨?_, ?_, ?_, ?_⟩, ?_⟩
  · by_cases hp : a = none
    · simp [foo_exception, hp]
    · by_cases hg : int_add base off < 0 ∨ size ≤ static_cast_size_t (int_add base off)
      · rw [foo_exception_of_guard_failed a base off size hp hg]
        simp
      · obtain ⟨_, w, _, _, _, _, hs⟩ := hread hp hg
        rw [foo_exception_of_guard_passed a base off size hp hg, hs]
        simp
  · by_cases hg : a = none ∨ int_add base off < 0 ∨
        size ≤ static_cast_size_t (int_add base off)
    · rw [foo_optional_of_guard_failed a base off size hg]
      simp
    · obtain ⟨_, w, _, _, _, _, hs⟩ := hread (fun h => hg (Or.inl h)) (fun h => hg (Or.inr h))
      rw [(foo_optional_of_guard_passed a base off size hg).1 w hs]
      simp
  · by_cases hp : a = none
    · simp [SafeArray.get, hp]
    · by_cases hg : int_add base off < 0 ∨ size ≤ static_cast_size_t (int_add base off)
      · rw [get_of_guard_failed (SafeArray.mk a size) base off hp hg]
        simp
      · obtain ⟨_, w, _, _, _, _, hs⟩ := hread hp hg
        rw [get_of_guard_passed (SafeArray.mk a size) base off hp hg]
        simp only [hs]
        simp
  · intro h1 h2
    obtain ⟨hp, hg⟩ := (asserts_iff a base off size).mp ⟨h1, h2⟩
    obtain ⟨_, w, _, _, _, _, hs⟩ := hread hp hg
    rw [foo_assert_of_asserts ndebug a base off size (Or.inr ⟨h1, h2⟩), hs]
    simp
  · rintro v (h | h | h | ⟨h1, h2, h⟩)
    · exact hval v ((foo_exception_returned_iff a base off size v).mp h)
    · exact hval v ((foo_optional_some_iff a base off size v).mp h)
    · exact hval v ((get_returned_iff (SafeArray.mk a size) base off v).mp h)
    · obtain ⟨hp, hg⟩ := (asserts_iff a base off size).mp ⟨h1, h2⟩
      rw [foo_assert_of_asserts ndebug a base off size (Or.inr ⟨h1, h2⟩)] at h
      exact hval v ⟨hp, hg, h⟩

/-- C7 at the array of `main`, for a request past its end (`base = 4`, `off = 3`) with the
assertions enabled: no variant reads outside the five elements. -/
theorem element_access_in_bounds_witness :
    (∀ l, some arr = some l → l.length = 5) ∧
    foo_exception (some arr) 4 3 5 ≠ .undefined ∧
    foo_optional (some arr) 4 3 5 ≠ .undefined ∧
    (SafeArray.mk (some arr) 5).get 4 3 ≠ .undefined := by
  have hlen : ∀ l, some arr = some l → l.length = 5 := by
    intro l h
    injection h with h
    rw [← h]
    rfl
  have h := (element_access_in_bounds (some arr) 4 3 5 false hlen).1
  exact ⟨hlen, h.1, h.2.1, h.2.2.1⟩

end HW1_3

namespace DebugVsRelease

/-! ### The logger and the console -/

theorem log_file (m : String) (w : World) :
    (Logger.log m w).file = w.file ++ ["[LOG] " ++ m] := rfl

theorem log_console (m : String) (w : World) :
    (Logger.log m w).console = w.console ++ ["[LOG] " ++ m] := rfl

theorem cout_file (line : String) (w : World) : (cout line w).file = w.file := rfl

theorem cout_console (line : String) (w : World) :
    (cout line w).console = w.console ++ [line] := rfl

/-- Every line echoed by the logger carries the `[LOG] ` tag. -/
theorem isLogLine_log (m : String) : isLogLine ("[LOG] " ++ m) = true := by
  unfold isLogLine
  rw [String.data_append, List.isPrefixOf_iff_prefix]
  exact List.prefix_append _ _

/-- File lines written by `processCriticalData_FIXED`. -/
theorem fixed_file (w : World) :
    (processCriticalData_FIXED w).file = w.file ++
      List.map (fun m => "[LOG] " ++ m)
        ["Entering processCriticalData_FIXED()",
         "Variable 'featureEnabled' properly initialized to: 1",
         "IF CONDITION: featureEnabled is TRUE - executing critical path",
         "Critical processing completed successfully",
         "Exiting processCriticalData_FIXED()"] := by
  simp [processCriticalData_FIXED, log_file, cout_file]
  decide

/-- Console lines written by `processCriticalData_FIXED`. -/
theorem fixed_console (w : World) :
    (processCriticalData_FIXED w).console = w.console ++
      ["[LOG] Entering processCriticalData_FIXED()",
       "[LOG] Variable 'featureEnabled' properly initialized to: 1",
       "[LOG] IF CONDITION: featureEnabled is TRUE - executing critical path",
       "Processing critical data...",
       "[LOG] Critical processing completed successfully",
       "[LOG] Exiting processCriticalData_FIXED()"] := by
  simp [processCriticalData_FIXED, log_console, cout_console]
  decide

/-- File lines written by `processCriticalData`. -/
theorem buggy_file (v : Int) (w : World) :
    (processCriticalData v w).file = w.file ++
      (["[LOG] Entering processCriticalData()",
        "[LOG] Variable 'featureEnabled' declared but not initialized",
        "[LOG] " ++ ("Value of featureEnabled: " ++ to_string v)] ++
       (if v ≠ 0 then
          ["[LOG] IF CONDITION: featureEnabled is TRUE - executing critical path",
           "[LOG] Critical processing completed successfully"]
        else
          ["[LOG] IF CONDITION: featureEnabled is FALSE - skipping critical path",
           "[LOG] WARNING: Critical processing was skipped!"]) ++
       ["[LOG] Exiting processCriticalData()"]) := by
  by_cases hv : v = 0
  · simp [processCriticalData, log_file, cout_file, hv]
  · simp [processCriticalData, log_file, cout_file, hv]

/-- Console lines written by `processCriticalData`. -/
theorem buggy_console (v : Int) (w : World) :
    (processCriticalData v w).console = w.console ++
      (["[LOG] Entering processCriticalData()",
        "[LOG] Variable 'featureEnabled' declared but not initialized",
        "[LOG] " ++ ("Value of featureEnabled: " ++ to_string v)] ++
       (if v ≠ 0 then
          ["[LOG] IF CONDITION: featureEnabled is TRUE - executing critical path",
           "Processing critical data...",
           "[LOG] Critical processing completed successfully"]
        else
          ["[LOG] IF CONDITION: featureEnabled is FALSE - skipping critical path",
           "Skipping critical processing - FEATURE DISABLED",
           "[LOG] WARNING: Critical processing was skipped!"]) ++
       ["[LOG] Exiting processCriticalData()"]) := by
  by_cases hv : v = 0
  · simp [processCriticalData, log_console, cout_console, hv]
  · simp [processCriticalData, log_console, cout_console, hv]

/-- The file lines a run adds are what follows the old content. -/
theorem fileOut_of_append {f : World → World} {w : World} {added : List String}
    (h : (f w).file = w.file ++ added) : fileOut f w = added := by
  simp [fileOut, h]

/-- The console lines a run adds are what follows the old content. -/
theorem consoleOut_of_append {f : World → World} {w : World} {added : List String}
    (h : (f w).console = w.console ++ added) : consoleOut f w = added := by
  simp [consoleOut, h]

/-- C8. `processCriticalData_FIXED` always takes the critical path: from every state it
appends to the log, in this order, the five messages of the critical path (each as a
`[LOG] ` line of the file, echoed on the console), prints `Processing critical data...` to
the console between the third and the fourth, and neither logs
`WARNING: Critical processing was skipped!` nor prints
`Skipping critical processing - FEATURE DISABLED`. -/
theorem fixed_takes_critical_path (w : World) :
    fileOut processCriticalData_FIXED w =
      List.map (fun m => "[LOG] " ++ m)
        ["Entering processCriticalData_FIXED()",
         "Variable 'featureEnabled' properly initialized to: 1",
         "IF CONDITION: featureEnabled is TRUE - executing critical path",
         "Critical processing completed successfully",
         "Exiting processCriticalData_FIXED()"] ∧
    (processCriticalData_FIXED w).file = w.file ++ fileOut processCriticalData_FIXED w ∧
    consoleOut processCriticalData_FIXED w =
      ["[LOG] Entering processCriticalData_FIXED()",
       "[LOG] Variable 'featureEnabled' properly initialized to: 1",
       "[LOG] IF CONDITION: featureEnabled is TRUE - executing critical path",
       "Processing critical data...",
       "[LOG] Critical processing completed successfully",
       "[LOG] Exiting processCriticalData_FIXED()"] ∧
    (processCriticalData_FIXED w).console = w.console ++ consoleOut processCriticalData_FIXED w ∧
    "[LOG] WARNING: Critical processing was skipped!" ∉ fileOut processCriticalData_FIXED w ∧
    "[LOG] WARNING: Critical processing was skipped!" ∉
      consoleOut processCriticalData_FIXED w ∧
    "Skipping critical processing - FEATURE DISABLED" ∉
      consoleOut processCriticalData_FIXED w := by
  have hf := fixed_file w
  have hc := fixed_console w
  have hfo := fileOut_of_append hf
  have hco := consoleOut_of_append hc
  refine ⟨hfo, ?_, hco, ?_, ?_, ?_, ?_⟩
  · rw [hfo]
    exact hf
  · rw [hco]
    exact hc
  · rw [hfo]
    decide
  · rw [hco]
    decide
  · rw [hco]
    decide

/-- The line that reports the value of `featureEnabled` differs from every text whose
seventh character is not `V`. -/
theorem value_line_ne (s t : String) (ht : t.data[6]? ≠ some 'V') :
    "[LOG] " ++ ("Value of featureEnabled: " ++ s) ≠ t := by
  intro h
  apply ht
  rw [← h]
  simp only [String.data_append]
  rfl

/-- Dropping the logger echoes, one line at a time. -/
theorem directPrints_cons (line : String) (rest : List String) :
    directPrints (line :: rest) =
      if isLogLine line = true then directPrints rest else line :: directPrints rest := by
  cases h : isLogLine line <;> simp [directPrints, List.filter, h]

/-- The lines `processCriticalData` prints directly, by the value of `featureEnabled`. -/
theorem buggy_directPrints (v : Int) (w : World) :
    directPrints (consoleOut (processCriticalData v) w) =
      if v ≠ 0 then ["Processing critical data..."]
      else ["Skipping critical processing - FEATURE DISABLED"] := by
  rw [consoleOut_of_append (buggy_console v w)]
  have hval := isLogLine_log ("Value of featureEnabled: " ++ to_string v)
  have htail : ∀ rest : List String,
      directPrints (["[LOG] Entering processCriticalData()",
        "[LOG] Variable 'featureEnabled' declared but not initialized",
        "[LOG] " ++ ("Value of featureEnabled: " ++ to_string v)] ++ rest) =
      directPrints rest := by
    intro rest
    have h1 : isLogLine "[LOG] Entering processCriticalData()" = true := by decide
    have h2 : isLogLine "[LOG] Variable 'featureEnabled' declared but not initialized" = true := by
      decide
    simp only [List.cons_append, List.nil_append, directPrints_cons, h1, h2, hval, if_true]
  rw [List.append_assoc, htail]
  by_cases hv : v = 0
  · simp only [hv, ne_eq, not_true_eq_false, if_false]
    decide
  · simp only [hv, ne_eq, not_false_eq_true, if_true]
    decide

/-- The lines `processCriticalData_FIXED` prints directly. -/
theorem fixed_directPrints (w : World) :
    directPrints (consoleOut processCriticalData_FIXED w) = ["Processing critical data..."] := by
  rw [consoleOut_of_append (fixed_console w)]
  decide

/-- Membership in the output of `processCriticalData` for a text that is not the line
reporting the value of `featureEnabled`. -/
theorem mem_buggy_lines (v : Int) (t : String) (rest : List String)
    (ht : t.data[6]? ≠ some 'V') :
    t ∈ ["[LOG] Entering processCriticalData()",
        "[LOG] Variable 'featureEnabled' declared but not initialized",
        "[LOG] " ++ ("Value of featureEnabled: " ++ to_string v)] ++ rest ↔
      t ∈ ["[LOG] Entering processCriticalData()",
        "[LOG] Variable 'featureEnabled' declared but not initialized"] ++ rest := by
  have hne : t ≠ "[LOG] " ++ ("Value of featureEnabled: " ++ to_string v) :=
    fun h => value_line_ne (to_string v) t ht h.symm
  simp only [List.cons_append, List.nil_append, List.mem_cons, hne, false_or]

/-- The console output of `processCriticalData` is never that of
`processCriticalData_FIXED`: it has one line more. -/
theorem buggy_console_ne_fixed (v : Int) (w : World) :
    consoleOut (processCriticalData v) w ≠ consoleOut processCriticalData_FIXED w := by
  rw [consoleOut_of_append (buggy_console v w), consoleOut_of_append (fixed_console w)]
  intro h
  have hlen := congrArg List.length h
  by_cases hv : v = 0 <;> simp [hv] at hlen

/-- The file lines written by a sequence of `log` calls. -/
theorem foldl_log_file (msgs : List String) (s : World) :
    (msgs.foldl (fun s m => Logger.log m s) s).file =
      s.file ++ msgs.map (fun m => "[LOG] " ++ m) := by
  induction msgs generalizing s with
  | nil => simp
  | cons m rest ih =>
    rw [List.foldl_cons, ih, log_file]
    simp

/-- The console lines written by a sequence of `log` calls. -/
theorem foldl_log_console (msgs : List String) (s : World) :
    (msgs.foldl (fun s m => Logger.log m s) s).console =
      s.console ++ msgs.map (fun m => "[LOG] " ++ m) := by
  induction msgs generalizing s with
  | nil => simp
  | cons m rest ih =>
    rw [List.foldl_cons, ih, log_console]
    simp

/-- C9, as amended. With the uninitialised local `featureEnabled` of `processCriticalData`
taken as an arbitrary value `v`: the function prints `Processing critical data...` and logs
`Critical processing completed successfully` if and only if `v != 0`; it prints
`Skipping critical processing - FEATURE DISABLED` and logs
`WARNING: Critical processing was skipped!` if and only if `v = 0`; and its console output
apart from the `[LOG] ` echoes of the logger equals that of `processCriticalData_FIXED`
exactly when `v != 0`. -/
theorem buggy_path_follows_value (v : Int) (w : World) :
    ("Processing critical data..." ∈ consoleOut (processCriticalData v) w ↔ v ≠ 0) ∧
    ("[LOG] Critical processing completed successfully" ∈
      fileOut (processCriticalData v) w ↔ v ≠ 0) ∧
    ("Skipping critical processing - FEATURE DISABLED" ∈
      consoleOut (processCriticalData v) w ↔ v = 0) ∧
    ("[LOG] WARNING: Critical processing was skipped!" ∈
      fileOut (processCriticalData v) w ↔ v = 0) ∧
    (directPrints (consoleOut (processCriticalData v) w) =
      directPrints (consoleOut processCriticalData_FIXED w) ↔ v ≠ 0) := by
  rw [consoleOut_of_append (buggy_console v w), fileOut_of_append (buggy_file v w)]
  refine ⟨?_, ?_, ?_, ?_, ?_⟩
  · rw [List.append_assoc, mem_buggy_lines v _ _ (by decide)]
    by_cases hv : v = 0
    · simp only [hv, ne_eq, not_true_eq_false, if_false]
      decide
    · simp only [hv, ne_eq, not_false_eq_true, if_true]
      decide
  · rw [List.append_assoc, mem_buggy_lines v _ _ (by decide)]
    by_cases hv : v = 0
    · simp only [hv, ne_eq, not_true_eq_false, if_false]
      decide
    · simp only [hv, ne_eq, not_false_eq_true, if_true]
      decide
  · rw [List.append_assoc, mem_buggy_lines v _ _ (by decide)]
    by_cases hv : v = 0
    · simp only [hv, ne_eq, not_true_eq_false, if_false]
      decide
    · simp only [hv, ne_eq, not_false_eq_true, if_true]
      decide
  · rw [List.append_assoc, mem_buggy_lines v _ _ (by decide)]
    by_cases hv : v = 0
    · simp only [hv, ne_eq, not_true_eq_false, if_false]
      decide
    · simp only [hv, ne_eq, not_false_eq_true, if_true]
      decide
  · rw [← consoleOut_of_append (buggy_console v w), buggy_directPrints, fixed_directPrints]
    by_cases hv : v = 0
    · simp only [hv, ne_eq, not_true_eq_false, if_false]
      decide
    · simp only [hv, ne_eq, not_false_eq_true, if_true]

/-- C9 as stated fails at `v = 1`: the value is non-zero, yet the console output of
`processCriticalData` differs from that of `processCriticalData_FIXED` (the logger echoes
every message on the console, and the messages name the function). -/
theorem buggy_console_eq_fixed_fails :
    ¬ (consoleOut (processCriticalData 1) ⟨[], []⟩ =
        consoleOut processCriticalData_FIXED ⟨[], []⟩ ↔ (1 : Int) ≠ 0) := by
  decide

/-- C10. The logger keeps the log file and the console in step. Construction leaves
`=== PROGRAM START ===` as the first (and only) file line and does not touch the console;
`log(m)` appends the one line `[LOG] m` to the file and the same line to the console;
destruction appends `=== PROGRAM END ===` to the file and does not touch the console. So
for every sequence of `log` calls between construction and destruction the file is START,
the `[LOG] ` lines in call order, END, and the console has gained the same `[LOG] ` lines
in the same order. -/
theorem logger_file_console_in_step (w : World) (msgs : List String) :
    ((Logger.ctor w).file = ["=== PROGRAM START ==="] ∧ (Logger.ctor w).console = w.console) ∧
    (∀ (m : String) (s : World),
      (Logger.log m s).file = s.file ++ ["[LOG] " ++ m] ∧
      (Logger.log m s).console = s.console ++ ["[LOG] " ++ m]) ∧
    (∀ s : World,
      (Logger.dtor s).file = s.file ++ ["=== PROGRAM END ==="] ∧
      (Logger.dtor s).console = s.console) ∧
    (Logger.dtor (msgs.foldl (fun s m => Logger.log m s) (Logger.ctor w))).file =
      "=== PROGRAM START ===" ::
        (msgs.map (fun m => "[LOG] " ++ m) ++ ["=== PROGRAM END ==="]) ∧
    (Logger.dtor (msgs.foldl (fun s m => Logger.log m s) (Logger.ctor w))).console =
      w.console ++ msgs.map (fun m => "[LOG] " ++ m) := by
  refine ⟨⟨rfl, rfl⟩, fun m s => ⟨rfl, rfl⟩, fun s => ⟨rfl, rfl⟩, ?_, ?_⟩
  · show (msgs.foldl (fun s m => Logger.log m s) (Logger.ctor w)).file ++ _ = _
    rw [foldl_log_file]
    rfl
  · show (msgs.foldl (fun s m => Logger.log m s) (Logger.ctor w)).console = _
    rw [foldl_log_console]
    rfl

end DebugVsRelease
